import Mathlib

/-!
# Verification of the oryn-python transport / parser layer

A shallow embedding of the client-side parsing and transport logic of
`oryn-python` (`src/oryn/parser.py`, `src/oryn/client.py`,
`src/oryn/types.py`, `src/oryn/transport/subprocess.py`), together with
proofs of the specified properties.

Strings are modelled as `List Char` (Python `str` is a sequence of code
points).  The Python regular expressions used by the parser are
delimiter-driven, so each one is embedded as a deterministic recursive
matcher with the same match semantics; character classes `\s`, `\w`, `\d`
are modelled over ASCII, which covers every character the patterns and
scenarios exercise.  Floating-point fields that the parser never inspects
(`latency_ms`, viewport geometry) are omitted.
-/

namespace Oryn

/-- Python `str.isspace` / regex `\s` on the ASCII range. -/
def pyIsSpace (c : Char) : Bool :=
  c = ' ' || c = '\t' || c = '\n' || c = '\x0d' || c = '\x0b' || c = '\x0c'

/-- Python `str.lower` on the ASCII range (the only characters the
classifier patterns compare). -/
def pyToLower (c : Char) : Char :=
  if 'A' ≤ c && c ≤ 'Z' then Char.ofNat (c.toNat + 32) else c

/-- Regex `\w` (word character), ASCII range. -/
def isWordCh (c : Char) : Bool :=
  c.isAlphanum || c = '_'

/-- Numeric value of a digit string, as computed by Python `int` on a
`\d+` match. -/
def digitsVal (ds : List Char) : Nat :=
  ds.foldl (fun a c => 10 * a + (c.toNat - 48)) 0

/-- Python `str.strip()`: drop leading and trailing whitespace. -/
def pyStrip (l : List Char) : List Char :=
  ((l.dropWhile pyIsSpace).reverse.dropWhile pyIsSpace).reverse

/-- Python `str.split(sep)` for a one-character separator: keeps empty
fields, never returns an empty list. -/
def pySplit (sep : Char) : List Char → List (List Char)
  | [] => [[]]
  | c :: cs =>
    if c = sep then [] :: pySplit sep cs
    else
      match pySplit sep cs with
      | t :: ts => (c :: t) :: ts
      | [] => [[c]]

/-- Python `str.split()` (no argument): split on whitespace runs,
dropping empty fields. -/
def pyWords (l : List Char) : List (List Char) :=
  ((l.map (fun c => if pyIsSpace c then ' ' else c)).splitOn ' ').filter (· ≠ [])

/-- Python `sub in s` substring containment. -/
def containsSub (pat : List Char) : List Char → Bool
  | [] => pat.isPrefixOf []
  | c :: cs => pat.isPrefixOf (c :: cs) || containsSub pat cs

/-- `re.match(r"^\d\x7b4\x7d-\d\x7b2\x7d-\d\x7b2\x7dT", line)`: an
ISO-8601-like timestamp prefix (client.py log-noise filter). -/
def startsTimestamp : List Char → Bool
  | a :: b :: c :: d :: '-' :: e :: f :: '-' :: g :: h :: 'T' :: _ =>
    a.isDigit && b.isDigit && c.isDigit && d.isDigit &&
    e.isDigit && f.isDigit && g.isDigit && h.isDigit
  | _ => false

/-- Attempt to consume one ANSI escape sequence `\x1b[[0-9;]*m` starting
just after an ESC character; returns the remaining input on a match. -/
def ansiTail (cs : List Char) : Option (List Char) :=
  match cs with
  | '[' :: t =>
    match t.dropWhile (fun c => c.isDigit || c = ';') with
    | 'm' :: r => some r
    | _ => none
  | _ => none

/-- Fuelled worker for `stripAnsi`; fuel is the input length (each step
consumes at least one input character). -/
def stripAnsiF : Nat → List Char → List Char
  | 0, l => l
  | _ + 1, [] => []
  | n + 1, c :: cs =>
    if c = '\x1b' then
      match ansiTail cs with
      | some rest => stripAnsiF n rest
      | none => c :: stripAnsiF n cs
    else c :: stripAnsiF n cs

/-- `re.sub(r"\x1b\[[0-9;]*m", "", raw)`: strip ANSI colour escape
sequences (client.py `_is_error_response`). -/
def stripAnsi (l : List Char) : List Char :=
  stripAnsiF l.length l

/-! ## Protocol data structures (protocol.py) -/

/-- `ElementState`: state flags for an element. -/
structure ElementState where
  checked : Bool := false
  selected : Bool := false
  disabled : Bool := false
  readonly : Bool := false
  expanded : Bool := false
  focused : Bool := false
  deriving DecidableEq, Repr

/-- `Element`: an interactive element on the page.  Fields the parser
never populates (`value`, `placeholder`, `selector`, `xpath`, `rect`,
`attributes`, `children`) are omitted; `rect` is floating point. -/
structure Element where
  id : Int
  element_type : List Char
  role : Option (List Char) := none
  text : Option (List Char) := none
  label : Option (List Char) := none
  state : ElementState := {}
  deriving DecidableEq, Repr

/-- `LoginPattern`. -/
structure LoginPattern where
  email : Option Int := none
  username : Option Int := none
  password : Int
  submit : Option Int := none
  remember : Option Int := none
  deriving DecidableEq, Repr

/-- `SearchPattern`. -/
structure SearchPattern where
  input : Int
  submit : Option Int := none
  deriving DecidableEq, Repr

/-- `PaginationPattern`. -/
structure PaginationPattern where
  prev : Option Int := none
  next : Option Int := none
  pages : List Int := []
  deriving DecidableEq, Repr

/-- `ModalPattern`. -/
structure ModalPattern where
  close : Option Int := none
  confirm : Option Int := none
  cancel : Option Int := none
  deriving DecidableEq, Repr

/-- `CookieBannerPattern`. -/
structure CookieBannerPattern where
  accept : Option Int := none
  reject : Option Int := none
  settings : Option Int := none
  deriving DecidableEq, Repr

/-- `DetectedPatterns`. -/
structure DetectedPatterns where
  login : Option LoginPattern := none
  search : Option SearchPattern := none
  pagination : Option PaginationPattern := none
  modal : Option ModalPattern := none
  cookie_banner : Option CookieBannerPattern := none
  deriving DecidableEq, Repr

/-- `IntentAvailability` (status kept as the string the parser stores). -/
structure IntentAvailability where
  name : List Char
  status : List Char
  parameters : List (List Char) := []
  trigger_reason : Option (List Char) := none
  deriving DecidableEq, Repr

/-- `PageInfo` (viewport / scroll geometry is floating point and is
default-constructed by the parser; omitted). -/
structure PageInfo where
  url : List Char
  title : List Char
  deriving DecidableEq, Repr

/-- `OrynObservation` (types.py).  `latency_ms` is a wall-clock float
written after parsing; omitted. -/
structure OrynObservation where
  raw : List Char
  url : List Char
  title : List Char
  elements : List Element := []
  patterns : Option DetectedPatterns := none
  available_intents : List IntentAvailability := []
  page_info : Option PageInfo := none
  token_count : Nat := 0
  deriving DecidableEq, Repr

/-- `OrynResult` (types.py); `latency_ms` float omitted, `navigation`
and `changes` never set by the embedded code paths. -/
structure OrynResult where
  success : Bool
  raw : List Char
  message : Option (List Char) := none
  error : Option (List Char) := none
  deriving DecidableEq, Repr

/-- `OrynResult.from_success`. -/
def OrynResult.from_success (raw : List Char) (message : Option (List Char)) : OrynResult :=
  { success := true, raw := raw, message := message }

/-- `OrynResult.from_error`. -/
def OrynResult.from_error (raw : List Char) (error : List Char) : OrynResult :=
  { success := false, raw := raw, error := some error }

/-! ## parser.py: regex matchers -/

/-- Groups captured by `ELEMENT_PATTERN`
`^\[(\d+)\]\s+(\w+)(?:/(\w+))?(?:\s+"([^"]*)")?(?:\s+\x7b([^\x7d]*)\x7d)?`. -/
structure ElemGroups where
  ds : List Char
  ty : List Char
  role : Option (List Char)
  text : Option (List Char)
  modifiers : Option (List Char)
  deriving DecidableEq, Repr

/-- The optional `(?:\s+"([^"]*)")?` group of `ELEMENT_PATTERN`: one or
more whitespace, a quoted run of non-quote characters.  Returns the
captured text and the rest; `none` means the optional group does not
match (the position is unchanged, per regex semantics). -/
def elemTextGroup (l : List Char) : Option (List Char × List Char) :=
  let sp := l.takeWhile pyIsSpace
  let r := l.dropWhile pyIsSpace
  if sp = [] then none
  else
    match r with
    | '"' :: r2 =>
      let txt := r2.takeWhile (fun c => c ≠ '"')
      match r2.dropWhile (fun c => c ≠ '"') with
      | '"' :: r3 => some (txt, r3)
      | _ => none
    | _ => none

/-- The optional `(?:\s+\x7b([^\x7d]*)\x7d)?` group of
`ELEMENT_PATTERN`. -/
def elemModsGroup (l : List Char) : Option (List Char × List Char) :=
  let sp := l.takeWhile pyIsSpace
  let r := l.dropWhile pyIsSpace
  if sp = [] then none
  else
    match r with
    | '{' :: r2 =>
      let mods := r2.takeWhile (fun c => c ≠ '}')
      match r2.dropWhile (fun c => c ≠ '}') with
      | '}' :: r3 => some (mods, r3)
      | _ => none
    | _ => none

/-- The optional `(?:/(\w+))?` group of `ELEMENT_PATTERN`: a slash and
a word; on failure the position is unchanged. -/
def elemRoleGroup (l : List Char) : Option (List Char) × List Char :=
  match l with
  | '/' :: r =>
    let ro := r.takeWhile isWordCh
    if ro = [] then (none, l) else (some ro, r.dropWhile isWordCh)
  | _ => (none, l)

/-- `ELEMENT_PATTERN.match(line)`.  The regex is delimiter-driven (the
greedy classes `\d`, `\w`, `\s`, `[^"]`, `[^\x7d]` are each disjoint
from the character that must follow them), so this deterministic
matcher has exactly the regex's match semantics, including the fallback
of an optional group to the pre-group position when it fails. -/
def elementMatch (l : List Char) : Option ElemGroups :=
  match l with
  | '[' :: r0 =>
    let ds := r0.takeWhile Char.isDigit
    let r1 := r0.dropWhile Char.isDigit
    if ds = [] then none
    else
      match r1 with
      | ']' :: r2 =>
        let sp := r2.takeWhile pyIsSpace
        let r3 := r2.dropWhile pyIsSpace
        if sp = [] then none
        else
          let ty := r3.takeWhile isWordCh
          let r4 := r3.dropWhile isWordCh
          if ty = [] then none
          else
            let roleStep := elemRoleGroup r4
            let r6 := roleStep.2
            let textStep : Option (List Char) × List Char :=
              match elemTextGroup r6 with
              | some (txt, r7) => (some txt, r7)
              | none => (none, r6)
            let r8 := textStep.2
            let modsStep : Option (List Char) :=
              match elemModsGroup r8 with
              | some (mods, _) => some mods
              | none => none
            some ⟨ds, ty, roleStep.1, textStep.1, modsStep⟩
      | _ => none
  | _ => none

/-- `SCAN_SUMMARY_PATTERN.match(line)` for
`^Scanned\s+(\d+)\s+elements?\.` (the captured count is discarded by
`parse_observation`, so only the Boolean matters). -/
def scanSummaryMatch (l : List Char) : Bool :=
  if ("Scanned".toList).isPrefixOf l then
    let r0 := l.drop 7
    let sp := r0.takeWhile pyIsSpace
    let r1 := r0.dropWhile pyIsSpace
    if sp = [] then false
    else
      let ds := r1.takeWhile Char.isDigit
      let r2 := r1.dropWhile Char.isDigit
      if ds = [] then false
      else
        let sp2 := r2.takeWhile pyIsSpace
        let r3 := r2.dropWhile pyIsSpace
        if sp2 = [] then false
        else if ("element".toList).isPrefixOf r3 then
          match r3.drop 7 with
          | 's' :: '.' :: _ => true
          | '.' :: _ => true
          | _ => false
        else false
  else false

/-- The four status icons of `INTENT_PATTERN`'s leading character class
(red, orange and green circles, black circle). -/
def intentIcons : List Char :=
  [Char.ofNat 0x1F534, Char.ofNat 0x1F7E0, Char.ofNat 0x1F7E2, Char.ofNat 0x26AB]

/-- Groups captured by `INTENT_PATTERN`
`^-\s+([icons])\s+(\S+)(?:\s+\(([^)]*)\))?(?:\s+\[([^\]]*)\])?`. -/
structure IntentGroups where
  icon : Char
  name : List Char
  params : Option (List Char)
  reason : Option (List Char)
  deriving DecidableEq, Repr

/-- The optional `(?:\s+\(([^)]*)\))?` group of `INTENT_PATTERN`. -/
def intentParamsGroup (l : List Char) : Option (List Char × List Char) :=
  let sp := l.takeWhile pyIsSpace
  let r := l.dropWhile pyIsSpace
  if sp = [] then none
  else
    match r with
    | '(' :: r2 =>
      let content := r2.takeWhile (fun c => c ≠ ')')
      match r2.dropWhile (fun c => c ≠ ')') with
      | ')' :: r3 => some (content, r3)
      | _ => none
    | _ => none

/-- The optional `(?:\s+\[([^\]]*)\])?` group of `INTENT_PATTERN`. -/
def intentReasonGroup (l : List Char) : Option (List Char × List Char) :=
  let sp := l.takeWhile pyIsSpace
  let r := l.dropWhile pyIsSpace
  if sp = [] then none
  else
    match r with
    | '[' :: r2 =>
      let content := r2.takeWhile (fun c => c ≠ ']')
      match r2.dropWhile (fun c => c ≠ ']') with
      | ']' :: r3 => some (content, r3)
      | _ => none
    | _ => none

/-- `INTENT_PATTERN.match(line)` (same deterministic-matcher argument as
for `elementMatch`). -/
def intentMatch (l : List Char) : Option IntentGroups :=
  match l with
  | '-' :: r0 =>
    let sp := r0.takeWhile pyIsSpace
    let r1 := r0.dropWhile pyIsSpace
    if sp = [] then none
    else
      match r1 with
      | icon :: r2 =>
        if icon ∈ intentIcons then
          let sp2 := r2.takeWhile pyIsSpace
          let r3 := r2.dropWhile pyIsSpace
          if sp2 = [] then none
          else
            let nm := r3.takeWhile (fun c => !pyIsSpace c)
            let r4 := r3.dropWhile (fun c => !pyIsSpace c)
            if nm = [] then none
            else
              let paramsStep : Option (List Char) × List Char :=
                match intentParamsGroup r4 with
                | some (p, r5) => (some p, r5)
                | none => (none, r4)
              let reasonStep : Option (List Char) :=
                match intentReasonGroup paramsStep.2 with
                | some (rs, _) => some rs
                | none => none
              some ⟨icon, nm, paramsStep.1, reasonStep⟩
        else none
      | [] => none
  | _ => none

/-! ## parser.py: semantic actions and `parse_observation` -/

/-- The comma-separated, stripped modifier tokens:
`[m.strip() for m in modifiers.split(",")]`. -/
def modsList (m : List Char) : List (List Char) :=
  (pySplit ',' m).map pyStrip

/-- `_parse_element_match`: build an `Element` from the regex groups.
`int()` on a `\d+` capture cannot raise, so the `try/except` that wraps
the Python body is dead and the result is always produced.  Python's
`if modifiers:` treats both `None` and the empty string as false. -/
def parseElementMatch (g : ElemGroups) : Element :=
  let state : ElementState :=
    match g.modifiers with
    | none => {}
    | some m =>
      if m = [] then {}
      else
        let mods := modsList m
        { checked := mods.contains "checked".toList
          disabled := mods.contains "disabled".toList
          readonly := mods.contains "readonly".toList
          focused := mods.contains "focused".toList
          expanded := mods.contains "expanded".toList
          selected := mods.contains "selected".toList }
  { id := (digitsVal g.ds : Int)
    element_type := g.ty
    role := g.role
    text := g.text
    label := g.text
    state := state }

/-- The icon → status table of `_parse_intent_match`, including the
`unknown` default of `status_map.get(icon, "unknown")`. -/
def statusOfIcon (c : Char) : List Char :=
  if c = Char.ofNat 0x1F7E2 then "ready".toList
  else if c = Char.ofNat 0x1F7E0 then "navigate_required".toList
  else if c = Char.ofNat 0x1F534 then "missing_pattern".toList
  else if c = Char.ofNat 0x26AB then "unavailable".toList
  else "unknown".toList

/-- `_parse_intent_match` (the `try/except` wrapper is again dead code:
no operation in the body can raise). -/
def parseIntentMatch (g : IntentGroups) : IntentAvailability :=
  { name := g.name
    status := statusOfIcon g.icon
    parameters :=
      match g.params with
      | none => []
      | some p => if p = [] then [] else (pySplit ',' p).map pyStrip
    trigger_reason := g.reason }

/-- `_add_pattern`: case-insensitive substring dispatch on the pattern
name, first match wins. -/
def addPattern (p : DetectedPatterns) (name : List Char) : DetectedPatterns :=
  let lower := name.map pyToLower
  if containsSub "login".toList lower then { p with login := some { password := 0 } }
  else if containsSub "search".toList lower then { p with search := some { input := 0 } }
  else if containsSub "pagination".toList lower then { p with pagination := some {} }
  else if containsSub "modal".toList lower then { p with modal := some {} }
  else if containsSub "cookie".toList lower then { p with cookie_banner := some {} }
  else p

/-- `_has_any_pattern`. -/
def hasAnyPattern (p : DetectedPatterns) : Bool :=
  p.login.isSome || p.search.isSome || p.pagination.isSome ||
  p.modal.isSome || p.cookie_banner.isSome

/-- The section the `parse_observation` loop is currently in. -/
inductive ObsSection where
  | main
  | patterns
  | intents
  deriving DecidableEq, Repr

/-- Mutable state of the `parse_observation` loop. -/
structure ObsState where
  sec : ObsSection := .main
  url : List Char := []
  title : List Char := []
  elements : List Element := []
  pats : DetectedPatterns := {}
  intents : List IntentAvailability := []
  deriving DecidableEq, Repr

/-- One iteration of the `for line in lines` loop of
`parse_observation`, acting on the loop state. -/
def obsStep (st : ObsState) (line : List Char) : ObsState :=
  let l := pyStrip line
  if l = [] then st
  else if l = "Patterns:".toList then { st with sec := .patterns }
  else if ("Available Intents".toList).isPrefixOf l then { st with sec := .intents }
  else
    match st.sec with
    | .main =>
      if scanSummaryMatch l then st
      else if ("Title:".toList).isPrefixOf l then { st with title := pyStrip (l.drop 6) }
      else if ("URL:".toList).isPrefixOf l then { st with url := pyStrip (l.drop 4) }
      else
        match elementMatch l with
        | some g => { st with elements := st.elements ++ [parseElementMatch g] }
        | none => st
    | .patterns =>
      if ("- ".toList).isPrefixOf l then { st with pats := addPattern st.pats (pyStrip (l.drop 2)) }
      else st
    | .intents =>
      match intentMatch l with
      | some g => { st with intents := st.intents ++ [parseIntentMatch g] }
      | none => st

/-- `parse_observation`: split the stripped input on newlines, fold the
loop body, then assemble the `OrynObservation` (`token_count` is
`len(raw)`). -/
def parse_observation (raw : List Char) : OrynObservation :=
  let st := (pySplit '\n' (pyStrip raw)).foldl obsStep {}
  { raw := raw
    url := st.url
    title := st.title
    elements := st.elements
    patterns := if hasAnyPattern st.pats then some st.pats else none
    available_intents := st.intents
    page_info := some { url := st.url, title := st.title }
    token_count := raw.length }

/-! ## parser.py: `parse_action_response` -/

/-- `ERROR_PATTERN.match(line)` for `^Error:\s+(.+)$`, on newline-free
input (every caller passes a single stripped line).  When everything
after the prefix is whitespace, the engine backtracks the greedy `\s+`
so that `(.+)` still captures one character. -/
def errorMatch (l : List Char) : Option (List Char) :=
  if ("Error:".toList).isPrefixOf l then
    let rest := l.drop 6
    let w := (rest.takeWhile pyIsSpace).length
    if w = 0 then none
    else if w < rest.length then some (rest.drop w)
    else if 2 ≤ w then some (rest.drop (w - 1))
    else none
  else none

/-- The `for line in lines` scan of `parse_action_response`: the first
line whose stripped form matches `ERROR_PATTERN`, with its captured
message. -/
def firstErrorLine : List (List Char) → Option (List Char)
  | [] => none
  | line :: rest =>
    match errorMatch (pyStrip line) with
    | some msg => some msg
    | none => firstErrorLine rest

/-- `parse_action_response`. -/
def parse_action_response (raw : List Char) : OrynResult :=
  let lines := pySplit '\n' (pyStrip raw)
  match firstErrorLine lines with
  | some msg => OrynResult.from_error raw msg
  | none =>
    let lowerRaw := raw.map pyToLower
    if containsSub "error".toList lowerRaw || containsSub "failed".toList lowerRaw then
      OrynResult.from_error raw (pyStrip raw)
    else
      OrynResult.from_success raw lines.head?

/-! ## client.py: success / failure classification and `execute` -/

/-- Log-noise test of `_is_error_response`: a timestamp prefix, or a
module path (`::`) together with a log level word. -/
def isLogNoise (l : List Char) : Bool :=
  startsTimestamp l ||
  (containsSub "::".toList l &&
    (containsSub "ERROR".toList l || containsSub "WARN".toList l ||
     containsSub "INFO".toList l))

/-- The cleaned lines `_is_error_response` actually inspects: ANSI
escapes stripped, lines stripped, empty lines dropped, log-noise lines
dropped. -/
def cleanLines (raw : List Char) : List (List Char) :=
  ((((pySplit '\n' (stripAnsi raw)).map pyStrip).filter (· ≠ [])).filter
    (fun l => !isLogNoise l))

/-- The per-line failure test of `_is_error_response` (ordered
prefix/substring rules over the lowercased line). -/
def isFailureLine (l : List Char) : Bool :=
  let lower := l.map pyToLower
  ("error:".toList).isPrefixOf lower ||
  containsSub "unknown command:".toList lower ||
  containsSub "element not found".toList lower ||
  containsSub "navigation failed".toList lower

/-- `OrynClient._is_error_response`. -/
def is_error_response (raw : List Char) : Bool :=
  (cleanLines raw).any isFailureLine

/-- The `OrynResult` built by `OrynClient.execute` from the raw
transport reply (`latency_ms` float omitted): `success` is the negated
classifier, `error` is the whole raw reply on failure. -/
def executeResult (raw : List Char) : OrynResult :=
  let ok := !is_error_response raw
  { success := ok, raw := raw, error := if ok then none else some raw }

/-! ## types.py: `OrynObservation.get_element` -/

/-- The `for elem in self.elements` scan of `get_element`. -/
def findById : List Element → Int → Option Element
  | [], _ => none
  | e :: es, i => if e.id = i then some e else findById es i

/-- `OrynObservation.get_element`: first element with the given id, or
`None`.  A pure function of the observation, which it leaves
untouched. -/
def get_element (obs : OrynObservation) (element_id : Int) : Option Element :=
  findById obs.elements element_id

/-! ## transport/subprocess.py: command/response exchange model

The transport performs real process I/O; the embedding keeps the
transport's own state (`_connected`, `_process`, `_process.returncode`)
and abstracts one `stdin`-write / `stdout`-read exchange as an oracle
`WaitOutcome` describing what the wait on the child produced. -/

/-- Errors escaping `send`: the errors.py exceptions reachable from it
(`TimeoutError` also carries the float timeout value, omitted), plus
`indexError` for the uncaught Python `IndexError` that
`command.split()[0]` raises in the timeout handler when the command is
non-empty but all whitespace (`split()` is then empty). -/
inductive TransportError where
  | connectionLost (returncode : Option Int)
  | timeout (operation : List Char)
  | indexError
  deriving DecidableEq, Repr

/-- Transport-visible state: `_connected`, whether `_process` is set,
and the child's current exit status (`None` while alive). -/
structure TransportState where
  connected : Bool
  hasProcess : Bool
  returncode : Option Int
  deriving DecidableEq, Repr

/-- What the awaited read produced: a complete reply (already
prompt-stripped by `_read_response`), an `asyncio.TimeoutError` from
`wait_for`, or end-of-stream; the last two carry the exit status
observed afterwards. -/
inductive WaitOutcome where
  | reply (text : List Char)
  | timedOut (rcNow : Option Int)
  | eof (rcNow : Option Int)
  deriving DecidableEq, Repr

/-- `command.split()[0] if command else "command"`: the operation name
recorded on a timeout.  `none` models the `IndexError` the `[0]`
subscript raises when the command is non-empty but all whitespace, so
that `split()` returns the empty list. -/
def commandName (cmd : List Char) : Option (List Char) :=
  if cmd = [] then some "command".toList else (pyWords cmd).head?

/-- `SubprocessTransport.send` / `_send_locked` under the oracle: the
guard checks, then the write/read exchange.  Returns the result together
with the transport state afterwards — no branch of the Python code
assigns `_connected`, `_process` or any other field, so the state is
returned unchanged on every path. -/
def sendModel (st : TransportState) (cmd : List Char) (outcome : WaitOutcome) :
    Except TransportError (List Char) × TransportState :=
  if !st.connected || !st.hasProcess then (.error (.connectionLost none), st)
  else
    match st.returncode with
    | some rc => (.error (.connectionLost (some rc)), st)
    | none =>
      match outcome with
      | .reply t => (.ok t, st)
      | .timedOut rcNow =>
        match rcNow with
        | some rc => (.error (.connectionLost (some rc)), st)
        | none =>
          match commandName cmd with
          | some op => (.error (.timeout op), st)
          | none => (.error .indexError, st)
      | .eof rcNow => (.error (.connectionLost rcNow), st)

/-! ## transport/subprocess.py: bounded stderr tail -/

/-- `_stderr_tail_limit_chars`. -/
def stderrTailLimit : Int := 16384

/-- State touched by `_append_stderr_tail`: the `deque` of retained
chunks (front = oldest) and the running character count. -/
structure TailState where
  tail : List (List Char)
  chars : Int
  deriving DecidableEq, Repr

/-- The `while self._stderr_tail and chars > limit: popleft` loop. -/
def evictOldest : List (List Char) → Int → List (List Char) × Int
  | [], c => ([], c)
  | t :: ts, c =>
    if stderrTailLimit < c then evictOldest ts (c - t.length) else (t :: ts, c)

/-- `SubprocessTransport._append_stderr_tail`. -/
def appendStderrTail (st : TailState) (text : List Char) : TailState :=
  if text = [] then st
  else
    let r := evictOldest (st.tail ++ [text]) (st.chars + text.length)
    { tail := r.1, chars := r.2 }

/-- Total retained size of the tail (what `_get_stderr_tail` would
join). -/
def tailSize (l : List (List Char)) : Nat :=
  (l.map List.length).sum

/-! ## Specification-side definitions

These render the grammar of spec §4.4 so that "every line matching the
element grammar" can be quantified over its components, and re-express
pieces of the fold for stating the invariants. -/

/-- Optional `/role` segment of an element line. -/
def renderRole : Option (List Char) → List Char
  | none => []
  | some r => '/' :: r

/-- Optional quoted-text segment of an element line. -/
def renderText : Option (List Char) → List Char
  | none => []
  | some t => ' ' :: '"' :: t ++ ['"']

/-- Python `", ".join(tokens)`. -/
def joinCommaSpace : List (List Char) → List Char
  | [] => []
  | [f] => f
  | f :: g :: rest => f ++ ',' :: ' ' :: joinCommaSpace (g :: rest)

/-- Optional brace-delimited flag-list segment of an element line,
comma-space separated as the engine prints it. -/
def renderFlags : Option (List (List Char)) → List Char
  | none => []
  | some fs => ' ' :: '{' :: joinCommaSpace fs ++ ['}']

/-- A line of the element grammar
`[id] type[/role] ["text"] [\x7bflag, flag, ...\x7d]`. -/
def renderElementLine (ds ty : List Char) (ro tx : Option (List Char))
    (fs : Option (List (List Char))) : List Char :=
  '[' :: (ds ++ ']' :: ' ' :: (ty ++ (renderRole ro ++ (renderText tx ++ renderFlags fs))))

/-- Whether a flag name is listed in the rendered flag segment. -/
def flagOn (fs : Option (List (List Char))) (name : List Char) : Bool :=
  match fs with
  | none => false
  | some l => l.contains name

/-- The section after processing one line (the header switches of the
`parse_observation` loop, which are independent of the rest of the
state). -/
def stepSection (sec : ObsSection) (line : List Char) : ObsSection :=
  let l := pyStrip line
  if l = [] then sec
  else if l = "Patterns:".toList then .patterns
  else if ("Available Intents".toList).isPrefixOf l then .intents
  else sec

/-- The elements contributed by one line of the `parse_observation`
loop (empty except for a matching element line in the main section). -/
def stepElems (sec : ObsSection) (line : List Char) : List Element :=
  let l := pyStrip line
  if l = [] then []
  else if l = "Patterns:".toList then []
  else if ("Available Intents".toList).isPrefixOf l then []
  else
    match sec with
    | .main =>
      if scanSummaryMatch l then []
      else if ("Title:".toList).isPrefixOf l then []
      else if ("URL:".toList).isPrefixOf l then []
      else
        match elementMatch l with
        | some g => [parseElementMatch g]
        | none => []
    | .patterns => []
    | .intents => []

/-- All elements contributed by a list of lines, starting from a given
section. -/
def elemsFromLines (sec : ObsSection) : List (List Char) → List Element
  | [] => []
  | l :: ls => stepElems sec l ++ elemsFromLines (stepSection sec l) ls

/-- The element ids occurring in the element-grammar lines of a raw
response (in line order, duplicates kept). -/
def mainLineIds (raw : List Char) : List Int :=
  (elemsFromLines .main (pySplit '\n' (pyStrip raw))).map (fun e => e.id)

/-- A line that matches none of the grammar rules applicable in the
current section (spec §4.4: such lines are dropped silently). -/
def droppedLine (sec : ObsSection) (line : List Char) : Bool :=
  let l := pyStrip line
  if l = [] then true
  else if l = "Patterns:".toList then false
  else if ("Available Intents".toList).isPrefixOf l then false
  else
    match sec with
    | .main =>
      !scanSummaryMatch l && !("Title:".toList).isPrefixOf l &&
      !("URL:".toList).isPrefixOf l && (elementMatch l).isNone
    | .patterns => !("- ".toList).isPrefixOf l
    | .intents => (intentMatch l).isNone

/-! ## Concrete inputs used by the scenario theorems -/

/-- Scenario A element line. -/
def scenarioALine : List Char :=
  "[3] checkbox \"Accept terms\" \x7bchecked, disabled\x7d".toList

/-- Scenario B raw reply. -/
def scenarioBRaw : List Char := "Error: Element not found".toList

/-- Scenario C raw reply. -/
def scenarioCRaw : List Char := "Clicked element [5]".toList

/-- A response whose intent line carries an icon (white circle U+26AA)
outside the fixed four-icon set. -/
def unknownIconRaw : List Char :=
  "Available Intents:\n- ".toList ++ Char.ofNat 0x26AA :: " login (user) [why]".toList

/-- A response whose element lines repeat an id. -/
def dupIdRaw : List Char := "[3] button\n[3] button".toList

/-- A concrete observation for exercising `get_element`. -/
def obsA : OrynObservation :=
  { raw := []
    url := []
    title := []
    elements :=
      [ { id := 1, element_type := "button".toList, text := some "A".toList }
      , { id := 5, element_type := "button".toList, text := some "B".toList } ] }

/-! ## Helper lemmas -/

theorem findById_some : ∀ (l : List Element) (i : Int) (e : Element),
    findById l i = some e →
    e.id = i ∧ ∃ k, ∃ h : k < l.length,
      l.get ⟨k, h⟩ = e ∧ ∀ e' ∈ l.take k, e'.id ≠ i := by
  intro l
  induction l with
  | nil => intro i e h; simp [findById] at h
  | cons a t ih =>
    intro i e h
    by_cases ha : a.id = i
    · simp only [findById, if_pos ha, Option.some.injEq] at h
      subst h
      exact ⟨ha, 0, by simp, rfl, by simp⟩
    · simp only [findById, if_neg ha] at h
      obtain ⟨hid, k, hk, hget, hbefore⟩ := ih i e h
      refine ⟨hid, k + 1, by simpa using Nat.succ_lt_succ hk, hget, ?_⟩
      intro e' he'
      simp only [List.take_succ_cons, List.mem_cons] at he'
      rcases he' with rfl | he'
      · exact ha
      · exact hbefore e' he'

theorem findById_none : ∀ (l : List Element) (i : Int),
    findById l i = none ↔ ∀ e ∈ l, e.id ≠ i := by
  intro l
  induction l with
  | nil => intro i; simp [findById]
  | cons a t ih =>
    intro i
    by_cases ha : a.id = i
    · simp [findById, ha]
    · simp [findById, ha, ih]

theorem dropWhile_append_not {α : Type} {p : α → Bool} {c : α} (hc : p c = false)
    (zs : List α) : ∀ xs : List α,
    List.dropWhile p (xs ++ c :: zs) = List.dropWhile p xs ++ c :: zs := by
  intro xs
  induction xs with
  | nil => simp [List.dropWhile_cons, hc]
  | cons x xt ih =>
    by_cases hx : p x
    · simp [List.dropWhile_cons, hx, ih]
    · simp [List.dropWhile_cons, hx]

theorem pyStrip_dash_line (icon : Char) (rest : List Char)
    (hsp : pyIsSpace icon = false) :
    pyStrip ('-' :: ' ' :: icon :: rest) =
      '-' :: ' ' :: icon :: (rest.reverse.dropWhile pyIsSpace).reverse := by
  unfold pyStrip
  have h1 : List.dropWhile pyIsSpace ('-' :: ' ' :: icon :: rest) =
      '-' :: ' ' :: icon :: rest := by
    simp [List.dropWhile_cons, show pyIsSpace '-' = false from by decide]
  rw [h1]
  have h2 : ('-' :: ' ' :: icon :: rest).reverse =
      rest.reverse ++ icon :: ' ' :: '-' :: [] := by
    simp
  rw [h2, dropWhile_append_not hsp]
  simp

theorem obsStep_dropped (st : ObsState) (line : List Char)
    (h : droppedLine st.sec line = true) : obsStep st line = st := by
  simp only [droppedLine] at h
  simp only [obsStep]
  split at h
  next h0 => simp [h0]
  next h0 =>
    split at h
    next h1 => exact absurd h (by simp)
    next h1 =>
      split at h
      next h2 => exact absurd h (by simp)
      next h2 =>
        rw [if_neg h0, if_neg h1, if_neg h2]
        cases hsec : st.sec
        case main =>
          rw [hsec] at h
          simp only [Bool.and_eq_true, Bool.not_eq_true'] at h
          obtain ⟨⟨⟨hsc, hti⟩, hur⟩, hel⟩ := h
          rw [Option.isNone_iff_eq_none] at hel
          dsimp only
          rw [if_neg (by simp only [hsc]; decide),
            if_neg (by simp only [hti]; decide),
            if_neg (by simp only [hur]; decide), hel]
        case patterns =>
          rw [hsec] at h
          simp only [Bool.not_eq_true'] at h
          dsimp only
          rw [if_neg (by simp only [h]; decide)]
        case intents =>
          rw [hsec] at h
          rw [Option.isNone_iff_eq_none] at h
          dsimp only
          rw [h]

theorem takeWhile_stop {α : Type} {p : α → Bool} : ∀ (xs ys : List α),
    (∀ a ∈ xs, p a = true) → (∀ y yt, ys = y :: yt → p y = false) →
    (xs ++ ys).takeWhile p = xs ∧ (xs ++ ys).dropWhile p = ys := by
  intro xs
  induction xs with
  | nil =>
    intro ys hx hy
    cases ys with
    | nil => simp
    | cons y yt =>
      simp [List.takeWhile_cons, List.dropWhile_cons, hy y yt rfl]
  | cons x xt ih =>
    intro ys hx hy
    have hpx : p x = true := hx x (by simp)
    have hr := ih ys (fun a ha => hx a (by simp [ha])) hy
    simp [List.takeWhile_cons, List.dropWhile_cons, hpx, hr.1, hr.2]

theorem word_not_space {c : Char} (h : isWordCh c = true) : pyIsSpace c = false := by
  cases hsp : pyIsSpace c
  · rfl
  · exfalso
    simp only [pyIsSpace, Bool.or_eq_true, decide_eq_true_eq] at hsp
    rcases hsp with ((((h1 | h2) | h3) | h4) | h5) | h6 <;> subst_vars <;>
      exact absurd h (by decide)

theorem pySplit_no_sep {sep : Char} : ∀ (f : List Char), sep ∉ f →
    pySplit sep f = [f] := by
  intro f
  induction f with
  | nil => intro _; rfl
  | cons c cf ih =>
    intro h
    have hc : ¬(c = sep) := fun hEq => h (by simp [hEq])
    have hcf : sep ∉ cf := fun hIn => h (by simp [hIn])
    simp only [pySplit, if_neg hc, ih hcf]

theorem pySplit_append {sep : Char} : ∀ (f l t : List Char) (ts : List (List Char)),
    sep ∉ f → pySplit sep l = t :: ts →
    pySplit sep (f ++ l) = (f ++ t) :: ts := by
  intro f
  induction f with
  | nil => intro l t ts _ h; simpa using h
  | cons c cf ih =>
    intro l t ts hf h
    have hc : ¬(c = sep) := fun hEq => hf (by simp [hEq])
    have hcf : sep ∉ cf := fun hIn => hf (by simp [hIn])
    rw [List.cons_append, pySplit, if_neg hc, ih l t ts hcf h]
    rfl

theorem pySplit_join : ∀ (rest : List (List Char)) (f : List Char),
    ',' ∉ f → (∀ g ∈ rest, ',' ∉ g) →
    pySplit ',' (joinCommaSpace (f :: rest)) =
      f :: rest.map (fun g => ' ' :: g) := by
  intro rest
  induction rest with
  | nil =>
    intro f hf _
    show pySplit ',' (joinCommaSpace [f]) = [f]
    rw [show joinCommaSpace [f] = f from rfl, pySplit_no_sep f hf]
  | cons g rest' ih =>
    intro f hf hrest
    have hg : ',' ∉ g := hrest g (by simp)
    have hrest' : ∀ x ∈ rest', ',' ∉ x := fun x hx => hrest x (by simp [hx])
    have hrec := ih g hg hrest'
    have hsp : pySplit ',' (' ' :: joinCommaSpace (g :: rest')) =
        (' ' :: g) :: rest'.map (fun x => ' ' :: x) := by
      rw [pySplit, if_neg (show ¬(' ' = ',') from by decide), hrec]
    have hcomma : pySplit ',' (',' :: ' ' :: joinCommaSpace (g :: rest')) =
        [] :: (' ' :: g) :: rest'.map (fun x => ' ' :: x) := by
      rw [pySplit, if_pos rfl, hsp]
    have := pySplit_append f (',' :: ' ' :: joinCommaSpace (g :: rest')) []
      ((' ' :: g) :: rest'.map (fun x => ' ' :: x)) hf hcomma
    rw [show joinCommaSpace (f :: g :: rest') =
        f ++ ',' :: ' ' :: joinCommaSpace (g :: rest') from rfl, this]
    simp

theorem pyStrip_cons_space (g : List Char) : pyStrip (' ' :: g) = pyStrip g := by
  simp only [pyStrip, List.dropWhile_cons, show pyIsSpace ' ' = true from rfl,
    if_true]

theorem modsList_join (l : List (List Char)) (hne : l ≠ [])
    (h : ∀ f ∈ l, ',' ∉ f ∧ pyStrip f = f) :
    modsList (joinCommaSpace l) = l := by
  obtain ⟨f, rest, rfl⟩ : ∃ f rest, l = f :: rest := by
    cases l with
    | nil => exact absurd rfl hne
    | cons f rest => exact ⟨f, rest, rfl⟩
  rw [modsList, pySplit_join rest f (h f (by simp)).1
    (fun g hg => (h g (by simp [hg])).1)]
  rw [List.map_cons, (h f (by simp)).2, List.map_map]
  have hmap : ∀ g ∈ rest, (pyStrip ∘ fun x => ' ' :: x) g = id g := by
    intro g hg
    simp only [Function.comp_apply, id_eq, pyStrip_cons_space]
    exact (h g (by simp [hg])).2
  rw [List.map_congr_left hmap, List.map_id]

theorem joinCommaSpace_no_rbrace : ∀ (l : List (List Char)),
    (∀ f ∈ l, ∀ c ∈ f, c ≠ '}') → ∀ c ∈ joinCommaSpace l, c ≠ '}' := by
  intro l
  induction l with
  | nil => intro _ c hc; simp [joinCommaSpace] at hc
  | cons f rest ih =>
    intro h c hc
    cases rest with
    | nil => exact h f (by simp) c (by simpa [joinCommaSpace] using hc)
    | cons g rest' =>
      rw [show joinCommaSpace (f :: g :: rest') =
          f ++ ',' :: ' ' :: joinCommaSpace (g :: rest') from rfl] at hc
      rcases List.mem_append.mp hc with hcf | hcr
      · exact h f (by simp) c hcf
      · rcases hcr with _ | ⟨_, _ | ⟨_, hcr⟩⟩
        · decide
        · decide
        · exact ih (fun x hx => h x (by simp [hx])) c hcr

theorem joinCommaSpace_ne_nil : ∀ (l : List (List Char)), l ≠ [] →
    (∀ f ∈ l, f ≠ []) → joinCommaSpace l ≠ [] := by
  intro l hne h
  cases l with
  | nil => exact absurd rfl hne
  | cons f rest =>
    cases rest with
    | nil => simpa [joinCommaSpace] using h f (by simp)
    | cons g rest' =>
      rw [show joinCommaSpace (f :: g :: rest') =
          f ++ ',' :: ' ' :: joinCommaSpace (g :: rest') from rfl]
      simp

theorem modsGroup_flags_none : elemModsGroup (renderFlags none) = none := rfl

theorem modsGroup_flags_some (l : List (List Char))
    (h : ∀ f ∈ l, ∀ c ∈ f, c ≠ '}') :
    elemModsGroup (renderFlags (some l)) = some (joinCommaSpace l, []) := by
  have hstop := takeWhile_stop (p := fun c => decide (c ≠ '}')) (joinCommaSpace l)
    ['}']
    (fun a ha => by simpa using joinCommaSpace_no_rbrace l h a ha)
    (fun y yt hEq => by
      have : y = '}' := by injection hEq with h1 _; exact h1.symm
      simp [this])
  show elemModsGroup (' ' :: '{' :: (joinCommaSpace l ++ ['}'])) = _
  rw [elemModsGroup]
  rw [List.takeWhile_cons, List.dropWhile_cons]
  simp only [show pyIsSpace ' ' = true from rfl, if_true]
  rw [List.takeWhile_cons, List.dropWhile_cons]
  simp only [show pyIsSpace '{' = false from by decide, Bool.false_eq_true, if_false]
  rw [if_neg (by simp)]
  simp only [hstop.1, hstop.2]

theorem textGroup_flags (fs : Option (List (List Char))) :
    elemTextGroup (renderFlags fs) = none := by
  cases fs <;> rfl

theorem textGroup_some (t C : List Char) (h : ∀ c ∈ t, c ≠ '"') :
    elemTextGroup (renderText (some t) ++ C) = some (t, C) := by
  have hstop := takeWhile_stop (p := fun c => decide (c ≠ '"')) t ('"' :: C)
    (fun a ha => by simpa using h a ha)
    (fun y yt hEq => by
      have : y = '"' := by injection hEq with h1 _; exact h1.symm
      simp [this])
  show elemTextGroup (' ' :: '"' :: (t ++ ['"']) ++ C) = _
  have hsh : (' ' :: '"' :: (t ++ ['"'])) ++ C = ' ' :: '"' :: (t ++ '"' :: C) := by
    simp
  rw [hsh, elemTextGroup]
  rw [List.takeWhile_cons, List.dropWhile_cons]
  simp only [show pyIsSpace ' ' = true from rfl, if_true]
  rw [List.takeWhile_cons, List.dropWhile_cons]
  simp only [show pyIsSpace '"' = false from by decide, Bool.false_eq_true, if_false]
  rw [if_neg (by simp)]
  simp only [hstop.1, hstop.2]

theorem roleGroup_skip (tx : Option (List Char)) (fs : Option (List (List Char))) :
    elemRoleGroup (renderText tx ++ renderFlags fs) =
      (none, renderText tx ++ renderFlags fs) := by
  cases tx <;> cases fs <;> rfl

theorem roleGroup_some (r B : List Char) (hne : r ≠ [])
    (hw : ∀ c ∈ r, isWordCh c = true)
    (hB : ∀ y yt, B = y :: yt → isWordCh y = false) :
    elemRoleGroup (('/' :: r) ++ B) = (some r, B) := by
  have hstop := takeWhile_stop (p := isWordCh) r B hw hB
  show elemRoleGroup ('/' :: (r ++ B)) = _
  rw [elemRoleGroup]
  rw [hstop.1, hstop.2, if_neg hne]

theorem elementMatch_render (ds ty : List Char) (ro tx : Option (List Char))
    (fs : Option (List (List Char)))
    (hds : ds ≠ []) (hdsd : ∀ c ∈ ds, c.isDigit = true)
    (hty : ty ≠ []) (htyw : ∀ c ∈ ty, isWordCh c = true)
    (hro : ∀ r, ro = some r → r ≠ [] ∧ ∀ c ∈ r, isWordCh c = true)
    (htx : ∀ t, tx = some t → ∀ c ∈ t, c ≠ '"')
    (hfs : ∀ l, fs = some l → ∀ f ∈ l, ∀ c ∈ f, c ≠ '}') :
    elementMatch (renderElementLine ds ty ro tx fs) =
      some ⟨ds, ty, ro, tx, fs.map joinCommaSpace⟩ := by
  obtain ⟨c0, ty', rfl⟩ : ∃ c0 ty', ty = c0 :: ty' := by
    cases ty with
    | nil => exact absurd rfl hty
    | cons c0 ty' => exact ⟨c0, ty', rfl⟩
  have hB : ∀ y yt, renderText tx ++ renderFlags fs = y :: yt →
      isWordCh y = false := by
    intro y yt hEq
    cases tx with
    | some t =>
      rw [show renderText (some t) ++ renderFlags fs =
        ' ' :: ('"' :: (t ++ ['"']) ++ renderFlags fs) from rfl] at hEq
      injection hEq with h1 _
      subst h1
      decide
    | none =>
      rw [show renderText none ++ renderFlags fs = renderFlags fs from rfl] at hEq
      cases fs with
      | none => simp [renderFlags] at hEq
      | some l =>
        rw [show renderFlags (some l) =
          ' ' :: ('{' :: (joinCommaSpace l ++ ['}'])) from rfl] at hEq
        injection hEq with h1 _
        subst h1
        decide
  have hA : ∀ y yt,
      renderRole ro ++ (renderText tx ++ renderFlags fs) = y :: yt →
      isWordCh y = false := by
    intro y yt hEq
    cases ro with
    | some r =>
      rw [show renderRole (some r) ++ (renderText tx ++ renderFlags fs) =
        '/' :: (r ++ (renderText tx ++ renderFlags fs)) from rfl] at hEq
      injection hEq with h1 _
      subst h1
      decide
    | none =>
      rw [show renderRole none ++ (renderText tx ++ renderFlags fs) =
        renderText tx ++ renderFlags fs from rfl] at hEq
      exact hB y yt hEq
  have hdig := takeWhile_stop (p := Char.isDigit) ds
    (']' :: ' ' :: ((c0 :: ty') ++ (renderRole ro ++ (renderText tx ++ renderFlags fs))))
    hdsd
    (fun y yt hEq => by
      injection hEq with h1 _
      subst h1
      decide)
  have hword := takeWhile_stop (p := isWordCh) (c0 :: ty')
    (renderRole ro ++ (renderText tx ++ renderFlags fs))
    htyw
    (fun y yt hEq => hA y yt hEq)
  have hroleEq : elemRoleGroup (renderRole ro ++ (renderText tx ++ renderFlags fs)) =
      (ro, renderText tx ++ renderFlags fs) := by
    cases ro with
    | some r =>
      have hr := hro r rfl
      exact roleGroup_some r (renderText tx ++ renderFlags fs) hr.1 hr.2
        (fun y yt hEq => hB y yt hEq)
    | none =>
      rw [show renderRole none ++ (renderText tx ++ renderFlags fs) =
        renderText tx ++ renderFlags fs from rfl]
      exact roleGroup_skip tx fs
  have htextEq : (match elemTextGroup (renderText tx ++ renderFlags fs) with
      | some (txt, r7) => ((some txt : Option (List Char)), r7)
      | none => (none, renderText tx ++ renderFlags fs)) =
      (tx, renderFlags fs) := by
    cases tx with
    | some t => rw [textGroup_some t (renderFlags fs) (htx t rfl)]
    | none =>
      rw [show renderText none ++ renderFlags fs = renderFlags fs from rfl,
        textGroup_flags fs]
  have hmodsEq : (match elemModsGroup (renderFlags fs) with
      | some (mods, _) => some mods
      | none => none) = fs.map joinCommaSpace := by
    cases fs with
    | none => rw [modsGroup_flags_none]; rfl
    | some l => rw [modsGroup_flags_some l (hfs l rfl)]; rfl
  have hc0s : pyIsSpace c0 = false := word_not_space (htyw c0 (by simp))
  rw [show renderElementLine ds (c0 :: ty') ro tx fs =
    '[' :: (ds ++ ']' :: ' ' :: ((c0 :: ty') ++
      (renderRole ro ++ (renderText tx ++ renderFlags fs)))) from rfl]
  rw [elementMatch]
  rw [hdig.1, hdig.2, if_neg hds]
  simp only []
  rw [List.takeWhile_cons, List.dropWhile_cons]
  simp only [show pyIsSpace ' ' = true from rfl, if_true]
  rw [show ((c0 :: ty') ++ (renderRole ro ++ (renderText tx ++ renderFlags fs))) =
    c0 :: (ty' ++ (renderRole ro ++ (renderText tx ++ renderFlags fs))) from rfl]
  rw [List.takeWhile_cons, List.dropWhile_cons]
  simp only [hc0s, Bool.false_eq_true, if_false]
  rw [if_neg (by simp)]
  rw [show c0 :: (ty' ++ (renderRole ro ++ (renderText tx ++ renderFlags fs))) =
    (c0 :: ty') ++ (renderRole ro ++ (renderText tx ++ renderFlags fs)) from rfl]
  rw [hword.1, hword.2, if_neg hty, hroleEq]
  dsimp only
  rw [htextEq]
  dsimp only
  rw [hmodsEq]

theorem obsStep_sec (st : ObsState) (line : List Char) :
    (obsStep st line).sec = stepSection st.sec line := by
  simp only [obsStep, stepSection]
  by_cases h0 : pyStrip line = []
  · simp only [if_pos h0]
  · simp only [if_neg h0]
    by_cases h1 : pyStrip line = "Patterns:".toList
    · simp only [if_pos h1]
    · simp only [if_neg h1]
      by_cases h2 : ("Available Intents".toList).isPrefixOf (pyStrip line) = true
      · simp only [if_pos h2]
      · simp only [if_neg h2]
        cases hs : st.sec <;> dsimp only <;>
          split <;> first
            | rfl
            | exact hs
            | (split <;> first | rfl | exact hs)
            | (split <;> first
                | rfl
                | exact hs
                | (split <;> first
                    | rfl
                    | exact hs
                    | (split <;> first | rfl | exact hs)))

theorem obsStep_elements (st : ObsState) (line : List Char) :
    (obsStep st line).elements = st.elements ++ stepElems st.sec line := by
  simp only [obsStep, stepElems]
  by_cases h0 : pyStrip line = []
  · simp only [if_pos h0, List.append_nil]
  · simp only [if_neg h0]
    by_cases h1 : pyStrip line = "Patterns:".toList
    · simp only [if_pos h1, List.append_nil]
    · simp only [if_neg h1]
      by_cases h2 : ("Available Intents".toList).isPrefixOf (pyStrip line) = true
      · simp only [if_pos h2, List.append_nil]
      · simp only [if_neg h2]
        cases hs : st.sec <;> dsimp only <;>
          split <;> first
            | (simp; done)
            | (split <;> first
                | (simp; done)
                | (split <;> first
                    | simp
                    | (split <;> simp)))

theorem foldl_obsStep_elements : ∀ (lines : List (List Char)) (st : ObsState),
    (List.foldl obsStep st lines).elements =
      st.elements ++ elemsFromLines st.sec lines := by
  intro lines
  induction lines with
  | nil => intro st; simp [elemsFromLines]
  | cons l ls ih =>
    intro st
    rw [List.foldl_cons, ih (obsStep st l), obsStep_elements, obsStep_sec]
    simp [elemsFromLines, List.append_assoc]

theorem suffix_append_right {α : Type} {l₁ l₂ : List α} (l₃ : List α)
    (h : List.IsSuffix l₁ l₂) : List.IsSuffix (l₁ ++ l₃) (l₂ ++ l₃) := by
  obtain ⟨t, ht⟩ := h
  exact ⟨t, by rw [← List.append_assoc, ht]⟩

theorem evictOldest_spec : ∀ (l : List (List Char)) (c : Int),
    c = (tailSize l : Int) →
    (evictOldest l c).2 = (tailSize (evictOldest l c).1 : Int) ∧
    tailSize (evictOldest l c).1 ≤ 16384 ∧
    List.IsSuffix (evictOldest l c).1 l := by
  intro l
  induction l with
  | nil =>
    intro c hc
    simp [tailSize] at hc
    simp [evictOldest, tailSize, hc, List.nil_suffix]
  | cons t ts ih =>
    intro c hc
    by_cases hgt : stderrTailLimit < c
    · have hc' : c - t.length = (tailSize ts : Int) := by
        have hsz : tailSize (t :: ts) = t.length + tailSize ts := by
          simp [tailSize]
        rw [hc, hsz]
        push_cast
        ring
      have h := ih (c - t.length) hc'
      simp only [evictOldest, if_pos hgt]
      exact ⟨h.1, h.2.1, h.2.2.trans (List.suffix_cons t ts)⟩
    · simp only [evictOldest, if_neg hgt]
      have hb : tailSize (t :: ts) ≤ 16384 := by
        have : c ≤ 16384 := by
          simp only [stderrTailLimit, not_lt] at hgt
          exact hgt
        rw [hc] at this
        exact_mod_cast this
      exact ⟨hc, hb, List.suffix_refl _⟩

theorem appendStderrTail_inv (st : TailState) (text : List Char)
    (h1 : st.chars = (tailSize st.tail : Int)) (h2 : tailSize st.tail ≤ 16384) :
    (appendStderrTail st text).chars =
      (tailSize (appendStderrTail st text).tail : Int) ∧
    tailSize (appendStderrTail st text).tail ≤ 16384 ∧
    List.IsSuffix (appendStderrTail st text).tail
      (st.tail ++ if text = [] then [] else [text]) := by
  by_cases ht : text = []
  · simp [appendStderrTail, ht, h1, h2, List.suffix_refl]
  · have hc : st.chars + text.length = (tailSize (st.tail ++ [text]) : Int) := by
      simp only [tailSize, List.map_append, List.sum_append, List.map_cons,
        List.map_nil, List.sum_cons, List.sum_nil, h1]
      push_cast
      ring
    have h := evictOldest_spec (st.tail ++ [text]) (st.chars + text.length) hc
    simp only [appendStderrTail, if_neg ht]
    exact ⟨h.1, h.2.1, by simpa [ht] using h.2.2⟩

theorem foldTail_inv : ∀ (chunks : List (List Char)) (st : TailState),
    st.chars = (tailSize st.tail : Int) → tailSize st.tail ≤ 16384 →
    (List.foldl appendStderrTail st chunks).chars =
      (tailSize (List.foldl appendStderrTail st chunks).tail : Int) ∧
    tailSize (List.foldl appendStderrTail st chunks).tail ≤ 16384 ∧
    List.IsSuffix (List.foldl appendStderrTail st chunks).tail
      (st.tail ++ chunks.filter (· ≠ [])) := by
  intro chunks
  induction chunks with
  | nil =>
    intro st h1 h2
    simpa [List.suffix_refl] using ⟨h1, h2⟩
  | cons c cs ih =>
    intro st h1 h2
    have hstep := appendStderrTail_inv st c h1 h2
    have hrec := ih (appendStderrTail st c) hstep.1 hstep.2.1
    refine ⟨hrec.1, hrec.2.1, ?_⟩
    have hmid : List.IsSuffix
        ((appendStderrTail st c).tail ++ cs.filter (· ≠ []))
        ((st.tail ++ if c = [] then [] else [c]) ++ cs.filter (· ≠ [])) :=
      suffix_append_right _ hstep.2.2
    have hfil : (st.tail ++ if c = [] then [] else [c]) ++ cs.filter (· ≠ []) =
        st.tail ++ (c :: cs).filter (· ≠ []) := by
      by_cases hc : c = [] <;> simp [hc, List.filter_cons]
    rw [hfil] at hmid
    exact (hrec.2.2.trans hmid)

/-! ## Claim theorems -/

/-- C1: for every raw action-style reply, the `Result` built by
`execute` has `success = true` iff none of the cleaned lines (ANSI
stripped, log noise dropped) starts with the error prefix or contains
one of the failure markers; in particular the reply
`Clicked element [5]` yields `success = true` and `error = None`. -/
theorem execute_success_iff_no_failure_line :
    (∀ raw : List Char,
      (executeResult raw).success = true ↔
        ∀ l ∈ cleanLines raw, isFailureLine l = false) ∧
    (executeResult scenarioCRaw).success = true ∧
    (executeResult scenarioCRaw).error = none := by
  refine ⟨fun raw => ?_, by decide, by decide⟩
  simp [executeResult, is_error_response, List.any_eq_true, Bool.not_eq_true']

/-- C1 witness: the general equivalence applied at the Scenario C
reply. -/
theorem execute_success_iff_no_failure_line_witness :
    (executeResult scenarioCRaw).success = true ↔
      ∀ l ∈ cleanLines scenarioCRaw, isFailureLine l = false :=
  execute_success_iff_no_failure_line.1 scenarioCRaw

/-- C4 counterexample: on the reply `Error: Element not found`,
`execute` classifies failure but stores the whole raw line in `error`,
not the message after the prefix. -/
theorem execute_error_field_is_raw :
    (executeResult scenarioBRaw).success = false ∧
    (executeResult scenarioBRaw).error ≠ some "Element not found".toList := by
  exact ⟨by decide, by decide⟩

/-- C4 (amended): on `Error: Element not found`, `execute` yields
`success = false` with `error` equal to the full raw reply, while
`parse_action_response` — which `execute` does not call — extracts the
message after the error prefix. -/
theorem execute_error_field_amended :
    (executeResult scenarioBRaw).success = false ∧
    (executeResult scenarioBRaw).error = some scenarioBRaw ∧
    (parse_action_response scenarioBRaw).success = false ∧
    (parse_action_response scenarioBRaw).error = some "Element not found".toList := by
  exact ⟨by decide, by decide, by decide, by decide⟩

/-- C6 counterexample: a non-empty, all-whitespace command whose reply
times out while the child is alive does not produce a `Timeout` error —
the `command.split()[0]` subscript in the timeout handler raises an
uncaught `IndexError` instead. -/
theorem whitespace_command_timeout_index_error :
    (sendModel ⟨true, true, none⟩ " ".toList (.timedOut none)).1 =
      .error .indexError ∧
    ∀ op, (sendModel ⟨true, true, none⟩ " ".toList (.timedOut none)).1 ≠
      .error (.timeout op) := by
  refine ⟨rfl, fun op h => ?_⟩
  rw [show (sendModel ⟨true, true, none⟩ " ".toList (.timedOut none)).1 =
    .error .indexError from rfl] at h
  exact absurd h (by simp)

/-- C6 (amended): when the per-command wait times out while the child
is still alive and the command has a leading whitespace-delimited token
(any command that is not whitespace-only), `send` fails with `Timeout`
naming that token (not `ConnectionLost`), leaves the transport state
untouched (`_connected` stays true), and a subsequent exchange on the
same session succeeds. -/
theorem timeout_keeps_session (st : TransportState) (cmd1 cmd2 reply op : List Char)
    (hc : st.connected = true) (hp : st.hasProcess = true)
    (hrc : st.returncode = none) (hop : commandName cmd1 = some op) :
    (sendModel st cmd1 (.timedOut none)).1 = .error (.timeout op) ∧
    (∀ rc, (sendModel st cmd1 (.timedOut none)).1 ≠ .error (.connectionLost rc)) ∧
    (sendModel st cmd1 (.timedOut none)).2 = st ∧
    (sendModel st cmd1 (.timedOut none)).2.connected = true ∧
    (sendModel (sendModel st cmd1 (.timedOut none)).2 cmd2 (.reply reply)).1 =
      .ok reply := by
  simp [sendModel, hc, hp, hrc, hop]

/-- C6 witness: a concrete timed-out `click` followed by a successful
`observe` on the same session; the recorded operation name is the
command itself. -/
theorem timeout_keeps_session_witness :
    commandName "click".toList = some "click".toList ∧
    (sendModel ⟨true, true, none⟩ "click".toList (.timedOut none)).1 =
      .error (.timeout "click".toList) ∧
    (sendModel (sendModel ⟨true, true, none⟩ "click".toList (.timedOut none)).2
        "observe".toList (.reply "OK".toList)).1 = .ok "OK".toList := by
  have h := timeout_keeps_session ⟨true, true, none⟩ "click".toList "observe".toList
    "OK".toList "click".toList rfl rfl rfl (by decide)
  exact ⟨by decide, h.1, h.2.2.2.2⟩

/-- C10: `get_element` returns the first element (in list order) whose
id matches, and `None` exactly when no element has the id.  It is a
pure function of the observation, which is unchanged by the lookup. -/
theorem get_element_first_match (obs : OrynObservation) (i : Int) :
    (∀ e, get_element obs i = some e →
      e.id = i ∧ ∃ k, ∃ h : k < obs.elements.length,
        obs.elements.get ⟨k, h⟩ = e ∧ ∀ e' ∈ obs.elements.take k, e'.id ≠ i) ∧
    (get_element obs i = none ↔ ∀ e ∈ obs.elements, e.id ≠ i) :=
  ⟨fun e h => findById_some obs.elements i e h, findById_none obs.elements i⟩

/-- C10 witness: on a concrete observation, an id that occurs nowhere
yields `None`. -/
theorem get_element_first_match_witness : get_element obsA 99 = none :=
  (get_element_first_match obsA 99).2.mpr (by decide)

/-- C2: every line of the element grammar
`[id] type[/role] ["text"] [\x7bflag, flag, ...\x7d]` parses to an
`Element` whose id (numeric value of the digit string), type, role,
text and six state flags exactly match the line; a flag is true iff its
name is listed inside the braces, and all flags are false when the
brace group is absent. -/
theorem element_grammar_roundtrip
    (ds ty : List Char) (ro tx : Option (List Char)) (fs : Option (List (List Char)))
    (hds : ds ≠ []) (hdsd : ∀ c ∈ ds, c.isDigit = true)
    (hty : ty ≠ []) (htyw : ∀ c ∈ ty, isWordCh c = true)
    (hro : ∀ r, ro = some r → r ≠ [] ∧ ∀ c ∈ r, isWordCh c = true)
    (htx : ∀ t, tx = some t → ∀ c ∈ t, c ≠ '"')
    (hfs : ∀ l, fs = some l →
      ∀ f ∈ l, f ≠ [] ∧ (∀ c ∈ f, c ≠ ',' ∧ c ≠ '}') ∧ pyStrip f = f) :
    (elementMatch (renderElementLine ds ty ro tx fs)).map parseElementMatch =
      some
        { id := (digitsVal ds : Int)
          element_type := ty
          role := ro
          text := tx
          label := tx
          state :=
            { checked := flagOn fs "checked".toList
              selected := flagOn fs "selected".toList
              disabled := flagOn fs "disabled".toList
              readonly := flagOn fs "readonly".toList
              expanded := flagOn fs "expanded".toList
              focused := flagOn fs "focused".toList } } := by
  rw [elementMatch_render ds ty ro tx fs hds hdsd hty htyw hro htx
    (fun l hl f hf c hc => ((hfs l hl f hf).2.1 c hc).2)]
  rw [Option.map_some']
  cases fs with
  | none => rfl
  | some l =>
    by_cases hl : l = []
    · subst hl
      rfl
    · have hne := joinCommaSpace_ne_nil l hl (fun f hf => (hfs l rfl f hf).1)
      have hmods := modsList_join l hl (fun f hf =>
        ⟨fun hmem => ((hfs l rfl f hf).2.1 ',' hmem).1 rfl, (hfs l rfl f hf).2.2⟩)
      rw [parseElementMatch]
      simp only [Option.map_some']
      rw [if_neg hne, hmods]
      rfl

/-- C2 witness: Scenario A — the line
`[3] checkbox "Accept terms" \x7bchecked, disabled\x7d` yields id 3,
type `checkbox`, text `Accept terms`, `checked` and `disabled` true and
every other flag false. -/
theorem element_grammar_roundtrip_witness :
    renderElementLine "3".toList "checkbox".toList none (some "Accept terms".toList)
        (some ["checked".toList, "disabled".toList]) = scenarioALine ∧
    (elementMatch scenarioALine).map parseElementMatch =
      some
        { id := 3
          element_type := "checkbox".toList
          role := none
          text := some "Accept terms".toList
          label := some "Accept terms".toList
          state := { checked := true, disabled := true } } := by
  refine ⟨by decide, ?_⟩
  have h := element_grammar_roundtrip "3".toList "checkbox".toList none
    (some "Accept terms".toList) (some ["checked".toList, "disabled".toList])
    (by decide) (by decide) (by decide) (by decide)
    (fun r hEq => by cases hEq)
    (fun t hEq => by cases hEq; decide)
    (fun l hEq => by cases hEq; decide)
  rw [show scenarioALine = renderElementLine "3".toList "checkbox".toList none
    (some "Accept terms".toList) (some ["checked".toList, "disabled".toList])
    from by decide]
  rw [h]
  decide

/-- C3: `parse_observation` is a total function — every input yields an
`OrynObservation` (no Python operation on the reachable inputs can
raise: `int()` is applied only to `\d+` captures, and both
`try/except` wrappers guard code that cannot fail) — and any line
matching no grammar rule of the current section leaves the loop state
unchanged, so it never aborts the parsing of the remaining lines. -/
theorem parse_observation_total_and_drops_unmatched :
    (∀ raw : List Char, ∃ obs : OrynObservation, parse_observation raw = obs) ∧
    (∀ (st : ObsState) (line : List Char) (rest : List (List Char)),
      droppedLine st.sec line = true →
      List.foldl obsStep st (line :: rest) = List.foldl obsStep st rest) := by
  refine ⟨fun raw => ⟨_, rfl⟩, fun st line rest h => ?_⟩
  rw [List.foldl_cons, obsStep_dropped st line h]

/-- C3 witness: a junk line is dropped in front of a real element
line. -/
theorem parse_observation_total_and_drops_unmatched_witness :
    droppedLine ({} : ObsState).sec "random junk ???".toList = true ∧
    List.foldl obsStep {} ["random junk ???".toList, "[1] button".toList] =
      List.foldl obsStep {} ["[1] button".toList] :=
  ⟨by decide,
   parse_observation_total_and_drops_unmatched.2 {} "random junk ???".toList
     ["[1] button".toList] (by decide)⟩

/-- C5 counterexample: an intent line whose icon (white circle U+26AA)
is outside the four-icon table produces nothing at all — the
observation's intent list is empty, with no `unknown`-status entry. -/
theorem unknown_icon_produces_no_intent :
    (parse_observation unknownIconRaw).available_intents = [] := by
  decide

/-- C5 (amended): in the intents section, an intent-availability line
whose leading icon is not one of the four table icons fails to match
`INTENT_PATTERN` and is silently dropped: the loop state is unchanged
and no `IntentAvailability` (in particular none with status `unknown`)
is produced. -/
theorem unrecognized_icon_line_dropped (st : ObsState) (icon : Char)
    (rest : List Char) (hsec : st.sec = .intents)
    (hicon : icon ∉ intentIcons) (hsp : pyIsSpace icon = false) :
    obsStep st ('-' :: ' ' :: icon :: rest) = st := by
  have hstrip := pyStrip_dash_line icon rest hsp
  simp only [obsStep]
  rw [hstrip]
  rw [if_neg (by simp)]
  rw [if_neg (by
    intro hEq
    rw [show "Patterns:".toList = 'P' :: "atterns:".toList from rfl] at hEq
    injection hEq with h1 _
    exact absurd h1 (by decide))]
  rw [if_neg (by
    rw [show "Available Intents".toList = 'A' :: "vailable Intents".toList from rfl]
    simp [List.isPrefixOf])]
  rw [hsec]
  dsimp only
  have hint : intentMatch
      ('-' :: ' ' :: icon :: (rest.reverse.dropWhile pyIsSpace).reverse) = none := by
    simp only [intentMatch]
    rw [List.takeWhile_cons, List.dropWhile_cons]
    simp only [show pyIsSpace ' ' = true from rfl, if_true]
    rw [List.takeWhile_cons, List.dropWhile_cons]
    simp only [hsp, if_false]
    simp [hicon]
  rw [hint]

/-- C5 witness: the amended statement at the concrete white-circle
line. -/
theorem unrecognized_icon_line_dropped_witness :
    ({ sec := ObsSection.intents } : ObsState).sec = ObsSection.intents ∧
    Char.ofNat 0x26AA ∉ intentIcons ∧
    pyIsSpace (Char.ofNat 0x26AA) = false ∧
    obsStep { sec := ObsSection.intents }
        ('-' :: ' ' :: Char.ofNat 0x26AA :: " login".toList) =
      { sec := ObsSection.intents } :=
  ⟨rfl, by decide, by decide,
   unrecognized_icon_line_dropped { sec := ObsSection.intents } (Char.ofNat 0x26AA)
     " login".toList rfl (by decide) (by decide)⟩

/-- C7 counterexample: `parse_observation` performs no deduplication —
a response repeating an element line yields two elements with the same
id. -/
theorem duplicate_ids_in_observation :
    ((parse_observation dupIdRaw).elements.map (fun e => e.id)) = [3, 3] ∧
    ¬ ((parse_observation dupIdRaw).elements.map (fun e => e.id)).Nodup := by
  exact ⟨by decide, by decide⟩

/-- C7 (amended): the parser emits one element per matching
element-grammar line, preserving ids in line order; the ids of the
returned observation are pairwise distinct exactly when the matched
lines carry pairwise distinct ids (which the engine's numbering
provides), since no deduplication is performed. -/
theorem element_ids_nodup_of_line_ids_nodup (raw : List Char)
    (h : (mainLineIds raw).Nodup) :
    ((parse_observation raw).elements.map (fun e => e.id)).Nodup := by
  have hel : (parse_observation raw).elements =
      elemsFromLines .main (pySplit '\n' (pyStrip raw)) := by
    show (List.foldl obsStep {} (pySplit '\n' (pyStrip raw))).elements = _
    rw [foldl_obsStep_elements]
    rfl
  rw [hel]
  exact h

/-- C7 witness: two element lines with distinct ids give an observation
with distinct ids. -/
theorem element_ids_nodup_of_line_ids_nodup_witness :
    (mainLineIds "[1] button\n[2] link".toList).Nodup ∧
    ((parse_observation "[1] button\n[2] link".toList).elements.map
      (fun e => e.id)).Nodup :=
  ⟨by decide, element_ids_nodup_of_line_ids_nodup "[1] button\n[2] link".toList
    (by decide)⟩

/-- C8: after any sequence of stderr appends, the retained tail never
exceeds the 16384-character budget, and what is retained is a suffix of
the (non-empty) chunks appended — the oldest chunks are evicted
first. -/
theorem stderr_tail_never_exceeds_budget (chunks : List (List Char)) :
    tailSize (List.foldl appendStderrTail ⟨[], 0⟩ chunks).tail ≤ 16384 ∧
    List.IsSuffix (List.foldl appendStderrTail ⟨[], 0⟩ chunks).tail
      (chunks.filter (· ≠ [])) := by
  have h := foldTail_inv chunks ⟨[], 0⟩ (by simp [tailSize]) (by simp [tailSize])
  exact ⟨h.2.1, by simpa using h.2.2⟩

end Oryn
